import Mathlib

/-!
Shallow embedding of `backend/app/quality_moderation.py`: the guideline
catalog data model, the status-aggregation algorithm
(`get_quality_moderation_status_for_appid`) and the verdict upsert entry
point (`set_quality_moderation_for_app`).

Timestamps (`datetime.datetime`) are modelled as `Nat`, with `0` standing
for `datetime.datetime.min` (the minimum representable instant); every
Python datetime value is at least `datetime.min`, matching every `Nat`
being at least `0`.  The three `datetime.datetime.now()` calls inside the
Python function are modelled by a single evaluation instant `now`, the
same modelling choice the specification makes for
`evaluate(app_id, catalog, verdicts, now)`.
-/

namespace QualityModeration

/-- The `Guideline` dataclass: a stable id slug, a documentation url, the
activation instant `needed_to_pass_since`, and a `read_only` flag
defaulting to false. -/
structure Guideline where
  id : String
  url : String
  needed_to_pass_since : Nat
  read_only : Bool := false
deriving Repr, DecidableEq

/-- The `GuidelineCategory` dataclass: an id slug and an ordered list of
guidelines. -/
structure GuidelineCategory where
  id : String
  guidelines : List Guideline
deriving Repr, DecidableEq

/-- Modelled from the spec: a stored verdict row of the
`models.QualityModeration` table, whose implementation file is not among
the sources.  Per spec section 3, a Verdict carries `app id`,
`guideline id`, `passed` (plain boolean), `moderator id` and
`updated at`; the Python code reads `mark.guideline_id`, `mark.passed`
and `mark.updated_at` from these rows. -/
structure Row where
  app_id : String
  guideline_id : String
  passed : Bool
  moderator_id : Nat
  updated_at : Nat
deriving Repr, DecidableEq

/-- The `UpsertQualityModeration` request body: a guideline id and a
boolean verdict. -/
structure UpsertQualityModeration where
  guideline_id : String
  passed : Bool
deriving Repr, DecidableEq

/-- The nested `for category in GUIDELINES: for guideline in
category.guidelines:` iteration, flattened into one ordered list of
(category id, guideline) pairs. -/
def flattenGuidelines (catalog : List GuidelineCategory) : List (String × Guideline) :=
  catalog.flatMap fun c => c.guidelines.map fun g => (c.id, g)

/-- The entries surviving the `if guideline.needed_to_pass_since >
datetime.datetime.now(): continue` filter: guidelines whose activation
instant is not strictly after `now`. -/
def activeEntries (catalog : List GuidelineCategory) (now : Nat) :
    List (String × Guideline) :=
  (flattenGuidelines catalog).filter fun e => !decide (e.2.needed_to_pass_since > now)

/-- `firstMatch = next((mark for mark in marks if mark.guideline_id ==
guideline.id), None)`: the first row of `marks` whose guideline id
matches, if any. -/
def firstMatch (marks : List Row) (gid : String) : Option Row :=
  marks.find? fun mark => mark.guideline_id == gid

/-- One entry of the `checks` list built in the loop body. -/
structure Check where
  category : String
  guideline : String
  needed_to_pass_since : Nat
  passed : Option Bool
  updated_at : Option Nat
deriving Repr, DecidableEq

/-- The dict appended to `checks` for one guideline: `passed` and
`updated_at` come from `firstMatch` when it exists, else `None`. -/
def mkCheck (categoryId : String) (g : Guideline) (marks : List Row) : Check :=
  { category := categoryId
    guideline := g.id
    needed_to_pass_since := g.needed_to_pass_since
    passed := (firstMatch marks g.id).map fun m => m.passed
    updated_at := (firstMatch marks g.id).map fun m => m.updated_at }

/-- The full `checks` list accumulated by the loop. -/
def checksList (catalog : List GuidelineCategory) (marks : List Row) (now : Nat) :
    List Check :=
  (activeEntries catalog now).map fun e => mkCheck e.1 e.2 marks

/-- The `unrated` counter: incremented once per loop iteration whose
`firstMatch is None`. -/
def unratedCount (catalog : List GuidelineCategory) (marks : List Row) (now : Nat) :
    Nat :=
  (activeEntries catalog now).countP fun e => (firstMatch marks e.2.id).isNone

/-- Python truthiness of the nullable boolean `item["passed"]`: `None`
and `False` are falsy, `True` is truthy. -/
def truthy : Option Bool → Bool
  | some b => b
  | none => false

/-- Python `item["passed"] is False`: true exactly on the value `False`,
false on `None` and `True`. -/
def isFalseLit : Option Bool → Bool
  | some b => !b
  | none => false

/-- The `passed` counter: length of the comprehension over `checks`
keeping items with `item["passed"]` truthy and
`item["needed_to_pass_since"] < datetime.datetime.now()`. -/
def passedCount (catalog : List GuidelineCategory) (marks : List Row) (now : Nat) :
    Nat :=
  (checksList catalog marks now).countP fun item =>
    truthy item.passed && decide (item.needed_to_pass_since < now)

/-- The `not_passed` counter: length of the comprehension over `checks`
keeping items with `item["passed"] is False` and
`item["needed_to_pass_since"] < datetime.datetime.now()`. -/
def notPassedCount (catalog : List GuidelineCategory) (marks : List Row) (now : Nat) :
    Nat :=
  (checksList catalog marks now).countP fun item =>
    isFalseLit item.passed && decide (item.needed_to_pass_since < now)

/-- Model of `datetime.datetime.min`, the minimum representable instant. -/
def dtMin : Nat := 0

/-- The inner `last_updated` helper, called on `marks`:
`max([check.updated_at for check in checks] + [datetime.datetime.min])`. -/
def lastUpdated (marks : List Row) : Nat :=
  (marks.map fun mark => mark.updated_at).foldr Nat.max dtMin

/-- The returned compliance report. -/
structure Report where
  passes : Bool
  unrated : Nat
  passed : Nat
  not_passed : Nat
  last_updated : Nat
deriving Repr, DecidableEq

/-- `get_quality_moderation_status_for_appid`, with the stored rows for
the app (`models.QualityModeration.by_appid`) passed in as `marks` and
the evaluation instant as `now`. -/
def evaluate (catalog : List GuidelineCategory) (marks : List Row) (now : Nat) :
    Report :=
  { passes := unratedCount catalog marks now + notPassedCount catalog marks now == 0
    unrated := unratedCount catalog marks now
    passed := passedCount catalog marks now
    not_passed := notPassedCount catalog marks now
    last_updated := lastUpdated marks }

/-- Modelled from the spec: `models.QualityModeration.upsert`, whose
implementation file is not among the sources.  Per spec section 4.3: if
no row exists for (app id, guideline id), create one with `updated_at`
set to the current time; if a row exists, overwrite `passed`,
`moderator_id` and `updated_at` unconditionally.  No check of the
catalog or of any `read_only` flag is performed. -/
def upsert (store : List Row) (app_id guideline_id : String) (passed : Bool)
    (moderator_id : Nat) (now : Nat) : List Row :=
  if store.any fun r => r.app_id == app_id && r.guideline_id == guideline_id then
    store.map fun r =>
      if r.app_id == app_id && r.guideline_id == guideline_id then
        { app_id := app_id, guideline_id := guideline_id, passed := passed
          moderator_id := moderator_id, updated_at := now }
      else r
  else
    store ++ [{ app_id := app_id, guideline_id := guideline_id, passed := passed
                moderator_id := moderator_id, updated_at := now }]

/-- The `POST /quality-moderation/\x7bapp_id\x7d` handler
`set_quality_moderation_for_app`: it forwards the body fields and the
moderator id to the store upsert with no validation of its own. -/
def set_quality_moderation_for_app (store : List Row) (app_id : String)
    (body : UpsertQualityModeration) (moderator_user_id : Nat) (now : Nat) :
    List Row :=
  upsert store app_id body.guideline_id body.passed moderator_user_id now

/-! Helper lemmas about the embedded definitions. -/

lemma mem_activeEntries {catalog : List GuidelineCategory} {now : Nat}
    {e : String × Guideline} :
    e ∈ activeEntries catalog now ↔
      e ∈ flattenGuidelines catalog ∧ e.2.needed_to_pass_since ≤ now := by
  simp [activeEntries, List.mem_filter, Nat.not_lt]

lemma needed_le_of_mem_active {catalog : List GuidelineCategory} {now : Nat}
    {e : String × Guideline} (h : e ∈ activeEntries catalog now) :
    e.2.needed_to_pass_since ≤ now :=
  (mem_activeEntries.mp h).2

lemma truthy_map_passed (o : Option Row) :
    truthy (o.map fun m => m.passed) = o.any fun m => m.passed := by
  cases o <;> rfl

lemma isFalseLit_map_passed (o : Option Row) :
    isFalseLit (o.map fun m => m.passed) = o.any fun m => !m.passed := by
  cases o <;> rfl

lemma activeEntries_erase_future (pre post : List GuidelineCategory)
    (cid : String) (gs1 gs2 : List Guideline) (g : Guideline) (now : Nat)
    (h : now < g.needed_to_pass_since) :
    activeEntries (pre ++ ⟨cid, gs1 ++ g :: gs2⟩ :: post) now
      = activeEntries (pre ++ ⟨cid, gs1 ++ gs2⟩ :: post) now := by
  simp only [activeEntries, flattenGuidelines, List.flatMap_append,
    List.flatMap_cons, List.map_append, List.map_cons, List.filter_append,
    List.filter_cons]
  have hg : (!decide (g.needed_to_pass_since > now)) = false := by
    simp [h]
  simp [hg]

/-- C1: a guideline whose activation time is strictly after `now` is
skipped entirely by evaluate: deleting it from the catalog changes
neither the check list nor any of the unrated, passed and not passed
counters, and every entry of the produced check list has activation time
at most `now`. -/
theorem c1_future_guideline_skipped (pre post : List GuidelineCategory)
    (cid : String) (gs1 gs2 : List Guideline) (g : Guideline)
    (marks : List Row) (now : Nat) (h : now < g.needed_to_pass_since) :
    checksList (pre ++ ⟨cid, gs1 ++ g :: gs2⟩ :: post) marks now
        = checksList (pre ++ ⟨cid, gs1 ++ gs2⟩ :: post) marks now
    ∧ (evaluate (pre ++ ⟨cid, gs1 ++ g :: gs2⟩ :: post) marks now).unrated
        = (evaluate (pre ++ ⟨cid, gs1 ++ gs2⟩ :: post) marks now).unrated
    ∧ (evaluate (pre ++ ⟨cid, gs1 ++ g :: gs2⟩ :: post) marks now).passed
        = (evaluate (pre ++ ⟨cid, gs1 ++ gs2⟩ :: post) marks now).passed
    ∧ (evaluate (pre ++ ⟨cid, gs1 ++ g :: gs2⟩ :: post) marks now).not_passed
        = (evaluate (pre ++ ⟨cid, gs1 ++ gs2⟩ :: post) marks now).not_passed
    ∧ ∀ ch ∈ checksList (pre ++ ⟨cid, gs1 ++ g :: gs2⟩ :: post) marks now,
        ch.needed_to_pass_since ≤ now := by
  have hA := activeEntries_erase_future pre post cid gs1 gs2 g now h
  refine ⟨?_, ?_, ?_, ?_, ?_⟩
  · simp [checksList, hA]
  · simp [evaluate, unratedCount, hA]
  · simp [evaluate, passedCount, checksList, hA]
  · simp [evaluate, notPassedCount, checksList, hA]
  · intro ch hch
    rcases List.mem_map.mp hch with ⟨e, he, rfl⟩
    simpa [mkCheck] using needed_le_of_mem_active he

/-- Witness for C1 at a concrete catalog, verdict list and instant. -/
theorem c1_future_guideline_skipped_witness :
    checksList [⟨"cat", [⟨"g", "u", 5, false⟩]⟩] [] 3
        = checksList [⟨"cat", []⟩] [] 3
    ∧ (evaluate [⟨"cat", [⟨"g", "u", 5, false⟩]⟩] [] 3).unrated
        = (evaluate [⟨"cat", []⟩] [] 3).unrated
    ∧ (evaluate [⟨"cat", [⟨"g", "u", 5, false⟩]⟩] [] 3).passed
        = (evaluate [⟨"cat", []⟩] [] 3).passed
    ∧ (evaluate [⟨"cat", [⟨"g", "u", 5, false⟩]⟩] [] 3).not_passed
        = (evaluate [⟨"cat", []⟩] [] 3).not_passed
    ∧ ∀ ch ∈ checksList [⟨"cat", [⟨"g", "u", 5, false⟩]⟩] [] 3,
        ch.needed_to_pass_since ≤ 3 :=
  c1_future_guideline_skipped [] [] "cat" [] [] ⟨"g", "u", 5, false⟩ [] 3
    (by decide)

/-- C2: the overall passes boolean equals the test that unrated plus not
passed is zero; equivalently it is true iff both counters vanish, and an
app with zero active guidelines trivially passes. -/
theorem c2_passes_formula (catalog : List GuidelineCategory)
    (marks : List Row) (now : Nat) :
    ((evaluate catalog marks now).passes
        = ((evaluate catalog marks now).unrated
            + (evaluate catalog marks now).not_passed == 0))
    ∧ ((evaluate catalog marks now).passes = true ↔
        (evaluate catalog marks now).unrated = 0
          ∧ (evaluate catalog marks now).not_passed = 0)
    ∧ (activeEntries catalog now = [] →
        (evaluate catalog marks now).passes = true) := by
  refine ⟨rfl, ?_, ?_⟩
  · simp only [evaluate]
    simp [Nat.add_eq_zero]
  · intro hA
    simp [evaluate, unratedCount, notPassedCount, checksList, hA]

/-- Witness for C2 at a concrete catalog, verdict list and instant. -/
theorem c2_passes_formula_witness :
    ((evaluate [⟨"c", [⟨"g", "u", 9, false⟩]⟩] [] 5).passes
        = ((evaluate [⟨"c", [⟨"g", "u", 9, false⟩]⟩] [] 5).unrated
            + (evaluate [⟨"c", [⟨"g", "u", 9, false⟩]⟩] [] 5).not_passed == 0))
    ∧ ((evaluate [⟨"c", [⟨"g", "u", 9, false⟩]⟩] [] 5).passes = true ↔
        (evaluate [⟨"c", [⟨"g", "u", 9, false⟩]⟩] [] 5).unrated = 0
          ∧ (evaluate [⟨"c", [⟨"g", "u", 9, false⟩]⟩] [] 5).not_passed = 0)
    ∧ (activeEntries [⟨"c", [⟨"g", "u", 9, false⟩]⟩] 5 = [] →
        (evaluate [⟨"c", [⟨"g", "u", 9, false⟩]⟩] [] 5).passes = true) :=
  c2_passes_formula [⟨"c", [⟨"g", "u", 9, false⟩]⟩] [] 5

/-- C3: a check list entry is counted as passed iff a verdict exists for
it with passed true and its activation time is strictly before `now`,
and as not passed iff a verdict exists with passed false under the same
strict temporal condition, the comparison being made at tally time. -/
theorem c3_tally_requires_verdict_and_strict_past
    (catalog : List GuidelineCategory) (marks : List Row) (now : Nat) :
    (evaluate catalog marks now).passed
        = (checksList catalog marks now).countP (fun ch =>
            ((firstMatch marks ch.guideline).any fun m => m.passed)
              && decide (ch.needed_to_pass_since < now))
    ∧ (evaluate catalog marks now).not_passed
        = (checksList catalog marks now).countP (fun ch =>
            ((firstMatch marks ch.guideline).any fun m => !m.passed)
              && decide (ch.needed_to_pass_since < now)) := by
  constructor
  · show passedCount catalog marks now = _
    unfold passedCount checksList
    rw [List.countP_map, List.countP_map]
    apply List.countP_congr
    intro e he
    cases hfm : firstMatch marks e.2.id <;>
      simp [Function.comp, mkCheck, truthy, hfm]
  · show notPassedCount catalog marks now = _
    unfold notPassedCount checksList
    rw [List.countP_map, List.countP_map]
    apply List.countP_congr
    intro e he
    cases hfm : firstMatch marks e.2.id <;>
      simp [Function.comp, mkCheck, isFalseLit, hfm]

/-- C4: a check list entry is counted as unrated iff no verdict exists
for its guideline id, with no activation time condition at this stage. -/
theorem c4_unrated_iff_no_verdict (catalog : List GuidelineCategory)
    (marks : List Row) (now : Nat) :
    (evaluate catalog marks now).unrated
      = (checksList catalog marks now).countP fun ch =>
          decide (∀ m ∈ marks, ¬ m.guideline_id = ch.guideline) := by
  show unratedCount catalog marks now = _
  unfold unratedCount checksList
  rw [List.countP_map]
  apply List.countP_congr
  intro e he
  simp [Function.comp, firstMatch, mkCheck, Option.isNone_iff_eq_none,
    List.find?_eq_none]

lemma lastUpdated_cons (a : Row) (l : List Row) :
    lastUpdated (a :: l) = Nat.max a.updated_at (lastUpdated l) := rfl

lemma le_lastUpdated {marks : List Row} {m : Row} (h : m ∈ marks) :
    m.updated_at ≤ lastUpdated marks := by
  induction marks with
  | nil => cases h
  | cons a l ih =>
    rw [lastUpdated_cons]
    rcases List.mem_cons.mp h with rfl | h2
    · exact Nat.le_max_left _ _
    · exact Nat.le_trans (ih h2) (Nat.le_max_right _ _)

lemma lastUpdated_attained (a : Row) (l : List Row) :
    ∃ m ∈ a :: l, lastUpdated (a :: l) = m.updated_at := by
  induction l generalizing a with
  | nil =>
    refine ⟨a, List.mem_cons_self a [], ?_⟩
    simp [lastUpdated, dtMin]
  | cons b l ih =>
    rcases Nat.le_total a.updated_at (lastUpdated (b :: l)) with hle | hle
    · rcases ih b with ⟨m, hm, he⟩
      refine ⟨m, List.mem_cons_of_mem a hm, ?_⟩
      rw [lastUpdated_cons]
      exact Nat.le_antisymm (Nat.max_le.mpr ⟨he ▸ hle, Nat.le_of_eq he⟩)
        (he ▸ Nat.le_max_right _ _)
    · refine ⟨a, List.mem_cons_self _ _, ?_⟩
      rw [lastUpdated_cons]
      exact Nat.le_antisymm (Nat.max_le.mpr ⟨Nat.le_refl _, hle⟩)
        (Nat.le_max_left _ _)

/-- C5: the report's last updated field is computed from the raw verdict
rows only — it is independent of the catalog and of the evaluation
instant, it bounds every row's update time from above, it is the minimum
representable instant when no verdicts exist, and otherwise it is
attained by some stored verdict. -/
theorem c5_last_updated_max_over_all_verdicts
    (catalog catalog2 : List GuidelineCategory) (marks : List Row)
    (now now2 : Nat) :
    ((evaluate catalog marks now).last_updated
        = (evaluate catalog2 marks now2).last_updated)
    ∧ (∀ m ∈ marks, m.updated_at ≤ (evaluate catalog marks now).last_updated)
    ∧ (marks = [] → (evaluate catalog marks now).last_updated = dtMin)
    ∧ (marks ≠ [] →
        ∃ m ∈ marks, (evaluate catalog marks now).last_updated = m.updated_at) := by
  refine ⟨rfl, ?_, ?_, ?_⟩
  · intro m hm
    exact le_lastUpdated hm
  · rintro rfl
    rfl
  · intro hne
    cases marks with
    | nil => exact absurd rfl hne
    | cons a l => exact lastUpdated_attained a l

/-- Witness for C5 at a concrete verdict list, catalogs and instants. -/
theorem c5_last_updated_max_over_all_verdicts_witness :
    ((evaluate [] [⟨"app", "g", true, 1, 7⟩] 0).last_updated
        = (evaluate [⟨"c", [⟨"g", "u", 0, false⟩]⟩] [⟨"app", "g", true, 1, 7⟩] 3).last_updated)
    ∧ (∀ m ∈ [(⟨"app", "g", true, 1, 7⟩ : Row)],
        m.updated_at ≤ (evaluate [] [⟨"app", "g", true, 1, 7⟩] 0).last_updated)
    ∧ ([(⟨"app", "g", true, 1, 7⟩ : Row)] = [] →
        (evaluate [] [⟨"app", "g", true, 1, 7⟩] 0).last_updated = dtMin)
    ∧ ([(⟨"app", "g", true, 1, 7⟩ : Row)] ≠ [] →
        ∃ m ∈ [(⟨"app", "g", true, 1, 7⟩ : Row)],
          (evaluate [] [⟨"app", "g", true, 1, 7⟩] 0).last_updated = m.updated_at) :=
  c5_last_updated_max_over_all_verdicts [] [⟨"c", [⟨"g", "u", 0, false⟩]⟩]
    [⟨"app", "g", true, 1, 7⟩] 0 3

lemma countP_partition4 {α : Type} (p1 p2 p3 p4 : α → Bool) (l : List α)
    (h : ∀ a ∈ l, (p1 a).toNat + (p2 a).toNat + (p3 a).toNat + (p4 a).toNat = 1) :
    l.countP p1 + l.countP p2 + l.countP p3 + l.countP p4 = l.length := by
  induction l with
  | nil => simp
  | cons a l ih =>
    have ha := h a (List.mem_cons_self a l)
    have ih2 := ih fun x hx => h x (List.mem_cons_of_mem a hx)
    simp only [List.countP_cons, List.length_cons]
    cases h1 : p1 a <;> cases h2 : p2 a <;> cases h3 : p3 a <;> cases h4 : p4 a <;>
      simp [h1, h2, h3, h4] at ha ⊢ <;> omega

lemma counts_partition (catalog : List GuidelineCategory) (marks : List Row)
    (now : Nat) :
    unratedCount catalog marks now + passedCount catalog marks now
      + notPassedCount catalog marks now
      + (activeEntries catalog now).countP
          (fun e => (firstMatch marks e.2.id).isSome
            && (e.2.needed_to_pass_since == now))
      = (activeEntries catalog now).length := by
  unfold unratedCount passedCount notPassedCount checksList
  rw [List.countP_map, List.countP_map]
  apply countP_partition4
  intro e he
  have hle : e.2.needed_to_pass_since ≤ now := needed_le_of_mem_active he
  cases hfm : firstMatch marks e.2.id with
  | none => simp [Function.comp, mkCheck, hfm, truthy, isFalseLit]
  | some m =>
    rcases Nat.lt_or_ge e.2.needed_to_pass_since now with hlt | hge
    · have hne : (e.2.needed_to_pass_since == now) = false := by
        simp [Nat.ne_of_lt hlt]
      cases hmp : m.passed <;>
        simp [Function.comp, mkCheck, hfm, truthy, isFalseLit, hlt, hne, hmp]
    · have heq : e.2.needed_to_pass_since = now := Nat.le_antisymm hle hge
      simp [Function.comp, mkCheck, hfm, truthy, isFalseLit, heq]

/-- C6: the three counters sum to at most the number of active
guidelines, and equality holds exactly when no catalog guideline has
activation time equal to `now` while also having a stored verdict. -/
theorem c6_counter_sum_bound (catalog : List GuidelineCategory)
    (marks : List Row) (now : Nat) :
    ((evaluate catalog marks now).unrated + (evaluate catalog marks now).passed
        + (evaluate catalog marks now).not_passed
        ≤ (activeEntries catalog now).length)
    ∧ ((evaluate catalog marks now).unrated + (evaluate catalog marks now).passed
          + (evaluate catalog marks now).not_passed
          = (activeEntries catalog now).length
        ↔ ¬ ∃ e ∈ flattenGuidelines catalog,
            e.2.needed_to_pass_since = now
              ∧ ∃ m ∈ marks, m.guideline_id = e.2.id) := by
  have hpart := counts_partition catalog marks now
  constructor
  · show unratedCount catalog marks now + passedCount catalog marks now
        + notPassedCount catalog marks now ≤ (activeEntries catalog now).length
    omega
  · show (unratedCount catalog marks now + passedCount catalog marks now
        + notPassedCount catalog marks now = (activeEntries catalog now).length) ↔ _
    constructor
    · intro hsum
      have ht : (activeEntries catalog now).countP
          (fun e => (firstMatch marks e.2.id).isSome
            && (e.2.needed_to_pass_since == now)) = 0 := by omega
      rw [List.countP_eq_zero] at ht
      rintro ⟨e, heF, hEq, m, hm, hmg⟩
      have heA : e ∈ activeEntries catalog now :=
        mem_activeEntries.mpr ⟨heF, Nat.le_of_eq hEq⟩
      apply ht e heA
      have hsome : (firstMatch marks e.2.id).isSome = true := by
        unfold firstMatch
        exact List.find?_isSome.mpr ⟨m, hm, by simp [hmg]⟩
      simp [hsome, hEq]
    · intro hno
      have ht : (activeEntries catalog now).countP
          (fun e => (firstMatch marks e.2.id).isSome
            && (e.2.needed_to_pass_since == now)) = 0 := by
        rw [List.countP_eq_zero]
        intro e heA hcontra
        simp only [Bool.and_eq_true] at hcontra
        rcases hcontra with ⟨hsome, hbeq⟩
        rcases List.find?_isSome.mp hsome with ⟨m, hm, hp⟩
        exact hno ⟨e, (mem_activeEntries.mp heA).1, by simpa using hbeq,
          m, hm, by simpa using hp⟩
      omega

/-- Witness for C6 at a concrete catalog with an activation tie. -/
theorem c6_counter_sum_bound_witness :
    ((evaluate [⟨"c", [⟨"g", "u", 5, false⟩]⟩] [⟨"app", "g", true, 1, 2⟩] 5).unrated
        + (evaluate [⟨"c", [⟨"g", "u", 5, false⟩]⟩] [⟨"app", "g", true, 1, 2⟩] 5).passed
        + (evaluate [⟨"c", [⟨"g", "u", 5, false⟩]⟩] [⟨"app", "g", true, 1, 2⟩] 5).not_passed
        ≤ (activeEntries [⟨"c", [⟨"g", "u", 5, false⟩]⟩] 5).length)
    ∧ ((evaluate [⟨"c", [⟨"g", "u", 5, false⟩]⟩] [⟨"app", "g", true, 1, 2⟩] 5).unrated
          + (evaluate [⟨"c", [⟨"g", "u", 5, false⟩]⟩] [⟨"app", "g", true, 1, 2⟩] 5).passed
          + (evaluate [⟨"c", [⟨"g", "u", 5, false⟩]⟩] [⟨"app", "g", true, 1, 2⟩] 5).not_passed
          = (activeEntries [⟨"c", [⟨"g", "u", 5, false⟩]⟩] 5).length
        ↔ ¬ ∃ e ∈ flattenGuidelines [⟨"c", [⟨"g", "u", 5, false⟩]⟩],
            e.2.needed_to_pass_since = 5
              ∧ ∃ m ∈ [(⟨"app", "g", true, 1, 2⟩ : Row)],
                  m.guideline_id = e.2.id) :=
  c6_counter_sum_bound [⟨"c", [⟨"g", "u", 5, false⟩]⟩] [⟨"app", "g", true, 1, 2⟩] 5

lemma counts_congr_of_firstMatch_eq (catalog : List GuidelineCategory)
    (marks marks2 : List Row) (now : Nat)
    (hfm : ∀ e ∈ flattenGuidelines catalog,
      firstMatch marks e.2.id = firstMatch marks2 e.2.id) :
    checksList catalog marks now = checksList catalog marks2 now
    ∧ unratedCount catalog marks now = unratedCount catalog marks2 now := by
  have hAct : ∀ e ∈ activeEntries catalog now,
      firstMatch marks e.2.id = firstMatch marks2 e.2.id :=
    fun e he => hfm e (mem_activeEntries.mp he).1
  constructor
  · unfold checksList
    apply List.map_congr_left
    intro e he
    simp [mkCheck, hAct e he]
  · unfold unratedCount
    apply List.countP_congr
    intro e he
    simp [hAct e he]

/-- C7: evaluate is total and failure free: every input yields a report;
an unknown app id or empty verdict set yields all guidelines unrated,
nothing passed or not passed, and the sentinel minimum last updated
instant; verdicts only referencing guidelines absent from the catalog
leave all counters as if no verdicts existed; and a catalog with zero
active guidelines yields a passing report. -/
theorem c7_evaluate_total_and_degenerate (catalog : List GuidelineCategory)
    (marks : List Row) (now : Nat) :
    (∃ r : Report, evaluate catalog marks now = r)
    ∧ (evaluate catalog [] now).unrated = (activeEntries catalog now).length
    ∧ (evaluate catalog [] now).passed = 0
    ∧ (evaluate catalog [] now).not_passed = 0
    ∧ (evaluate catalog [] now).last_updated = dtMin
    ∧ ((∀ m ∈ marks, ∀ e ∈ flattenGuidelines catalog,
          ¬ m.guideline_id = e.2.id) →
        (evaluate catalog marks now).unrated = (evaluate catalog [] now).unrated
        ∧ (evaluate catalog marks now).passed = (evaluate catalog [] now).passed
        ∧ (evaluate catalog marks now).not_passed
            = (evaluate catalog [] now).not_passed
        ∧ (evaluate catalog marks now).passes = (evaluate catalog [] now).passes)
    ∧ (activeEntries catalog now = [] →
        (evaluate catalog marks now).passes = true) := by
  refine ⟨⟨_, rfl⟩, ?_, ?_, ?_, rfl, ?_, ?_⟩
  · show unratedCount catalog [] now = _
    simp [unratedCount, firstMatch]
  · show passedCount catalog [] now = 0
    simp [passedCount, checksList, mkCheck, firstMatch, truthy]
  · show notPassedCount catalog [] now = 0
    simp [notPassedCount, checksList, mkCheck, firstMatch, isFalseLit]
  · intro h
    have hfm : ∀ e ∈ flattenGuidelines catalog,
        firstMatch marks e.2.id = firstMatch ([] : List Row) e.2.id := by
      intro e he
      have hn : firstMatch marks e.2.id = none := by
        unfold firstMatch
        apply List.find?_eq_none.mpr
        intro x hx
        simp [h x hx e he]
      rw [hn]
      rfl
    obtain ⟨hch, hun⟩ := counts_congr_of_firstMatch_eq catalog marks [] now hfm
    have hp : passedCount catalog marks now = passedCount catalog [] now := by
      unfold passedCount
      rw [hch]
    have hnp : notPassedCount catalog marks now = notPassedCount catalog [] now := by
      unfold notPassedCount
      rw [hch]
    refine ⟨hun, hp, hnp, ?_⟩
    show (unratedCount catalog marks now + notPassedCount catalog marks now == 0)
      = (unratedCount catalog [] now + notPassedCount catalog [] now == 0)
    rw [hun, hnp]
  · intro hA
    simp [evaluate, unratedCount, notPassedCount, checksList, hA]

/-- Witness for C7 at a concrete catalog, verdict list and instant. -/
theorem c7_evaluate_total_and_degenerate_witness :
    (∃ r : Report, evaluate [⟨"c", [⟨"g", "u", 2, false⟩]⟩]
        [⟨"app", "retired", true, 3, 9⟩] 1 = r)
    ∧ (evaluate [⟨"c", [⟨"g", "u", 2, false⟩]⟩] [] 1).unrated
        = (activeEntries [⟨"c", [⟨"g", "u", 2, false⟩]⟩] 1).length
    ∧ (evaluate [⟨"c", [⟨"g", "u", 2, false⟩]⟩] [] 1).passed = 0
    ∧ (evaluate [⟨"c", [⟨"g", "u", 2, false⟩]⟩] [] 1).not_passed = 0
    ∧ (evaluate [⟨"c", [⟨"g", "u", 2, false⟩]⟩] [] 1).last_updated = dtMin
    ∧ ((∀ m ∈ [(⟨"app", "retired", true, 3, 9⟩ : Row)],
          ∀ e ∈ flattenGuidelines [⟨"c", [⟨"g", "u", 2, false⟩]⟩],
            ¬ m.guideline_id = e.2.id) →
        (evaluate [⟨"c", [⟨"g", "u", 2, false⟩]⟩]
            [⟨"app", "retired", true, 3, 9⟩] 1).unrated
          = (evaluate [⟨"c", [⟨"g", "u", 2, false⟩]⟩] [] 1).unrated
        ∧ (evaluate [⟨"c", [⟨"g", "u", 2, false⟩]⟩]
            [⟨"app", "retired", true, 3, 9⟩] 1).passed
          = (evaluate [⟨"c", [⟨"g", "u", 2, false⟩]⟩] [] 1).passed
        ∧ (evaluate [⟨"c", [⟨"g", "u", 2, false⟩]⟩]
            [⟨"app", "retired", true, 3, 9⟩] 1).not_passed
          = (evaluate [⟨"c", [⟨"g", "u", 2, false⟩]⟩] [] 1).not_passed
        ∧ (evaluate [⟨"c", [⟨"g", "u", 2, false⟩]⟩]
            [⟨"app", "retired", true, 3, 9⟩] 1).passes
          = (evaluate [⟨"c", [⟨"g", "u", 2, false⟩]⟩] [] 1).passes)
    ∧ (activeEntries [⟨"c", [⟨"g", "u", 2, false⟩]⟩] 1 = [] →
        (evaluate [⟨"c", [⟨"g", "u", 2, false⟩]⟩]
            [⟨"app", "retired", true, 3, 9⟩] 1).passes = true) :=
  c7_evaluate_total_and_degenerate [⟨"c", [⟨"g", "u", 2, false⟩]⟩]
    [⟨"app", "retired", true, 3, 9⟩] 1

lemma firstMatch_skip (v1 v2 : List Row) (m : Row) (gid : String)
    (hne : ¬ m.guideline_id = gid) :
    firstMatch (v1 ++ m :: v2) gid = firstMatch (v1 ++ v2) gid := by
  unfold firstMatch
  rw [List.find?_append, List.find?_append]
  congr 1
  rw [List.find?_cons_of_neg]
  simp [hne]

/-- C8: a verdict whose guideline id does not occur in the catalog is
ignored by aggregation: removing it from the verdict list leaves the
check list and the unrated, passed, not passed and passes fields of the
report unchanged. -/
theorem c8_retired_verdicts_ignored (catalog : List GuidelineCategory)
    (v1 v2 : List Row) (m : Row) (now : Nat)
    (h : ∀ e ∈ flattenGuidelines catalog, ¬ e.2.id = m.guideline_id) :
    checksList catalog (v1 ++ m :: v2) now = checksList catalog (v1 ++ v2) now
    ∧ (evaluate catalog (v1 ++ m :: v2) now).unrated
        = (evaluate catalog (v1 ++ v2) now).unrated
    ∧ (evaluate catalog (v1 ++ m :: v2) now).passed
        = (evaluate catalog (v1 ++ v2) now).passed
    ∧ (evaluate catalog (v1 ++ m :: v2) now).not_passed
        = (evaluate catalog (v1 ++ v2) now).not_passed
    ∧ (evaluate catalog (v1 ++ m :: v2) now).passes
        = (evaluate catalog (v1 ++ v2) now).passes := by
  have hfm : ∀ e ∈ flattenGuidelines catalog,
      firstMatch (v1 ++ m :: v2) e.2.id = firstMatch (v1 ++ v2) e.2.id := by
    intro e he
    exact firstMatch_skip v1 v2 m e.2.id fun hc => h e he hc.symm
  obtain ⟨hch, hun⟩ :=
    counts_congr_of_firstMatch_eq catalog (v1 ++ m :: v2) (v1 ++ v2) now hfm
  have hp : passedCount catalog (v1 ++ m :: v2) now
      = passedCount catalog (v1 ++ v2) now := by
    unfold passedCount
    rw [hch]
  have hnp : notPassedCount catalog (v1 ++ m :: v2) now
      = notPassedCount catalog (v1 ++ v2) now := by
    unfold notPassedCount
    rw [hch]
  refine ⟨hch, hun, hp, hnp, ?_⟩
  show (unratedCount catalog (v1 ++ m :: v2) now
      + notPassedCount catalog (v1 ++ m :: v2) now == 0)
    = (unratedCount catalog (v1 ++ v2) now
      + notPassedCount catalog (v1 ++ v2) now == 0)
  rw [hun, hnp]

/-- Witness for C8 at a concrete catalog and retired verdict. -/
theorem c8_retired_verdicts_ignored_witness :
    checksList [⟨"c", [⟨"g", "u", 0, false⟩]⟩] [⟨"app", "old", true, 1, 4⟩] 3
        = checksList [⟨"c", [⟨"g", "u", 0, false⟩]⟩] [] 3
    ∧ (evaluate [⟨"c", [⟨"g", "u", 0, false⟩]⟩] [⟨"app", "old", true, 1, 4⟩] 3).unrated
        = (evaluate [⟨"c", [⟨"g", "u", 0, false⟩]⟩] [] 3).unrated
    ∧ (evaluate [⟨"c", [⟨"g", "u", 0, false⟩]⟩] [⟨"app", "old", true, 1, 4⟩] 3).passed
        = (evaluate [⟨"c", [⟨"g", "u", 0, false⟩]⟩] [] 3).passed
    ∧ (evaluate [⟨"c", [⟨"g", "u", 0, false⟩]⟩] [⟨"app", "old", true, 1, 4⟩] 3).not_passed
        = (evaluate [⟨"c", [⟨"g", "u", 0, false⟩]⟩] [] 3).not_passed
    ∧ (evaluate [⟨"c", [⟨"g", "u", 0, false⟩]⟩] [⟨"app", "old", true, 1, 4⟩] 3).passes
        = (evaluate [⟨"c", [⟨"g", "u", 0, false⟩]⟩] [] 3).passes :=
  c8_retired_verdicts_ignored [⟨"c", [⟨"g", "u", 0, false⟩]⟩] [] []
    ⟨"app", "old", true, 1, 4⟩ 3 (by decide)

/-- C9: the upsert path rejects nothing: the route handler forwards any
body unchanged to the store upsert, and for every store state, app id,
guideline id, verdict and moderator the freshly written row is present
in the resulting store, with no read only check and no catalog
membership check anywhere on the path. -/
theorem c9_upsert_accepts_everything (store : List Row)
    (app_id guideline_id : String) (passed : Bool) (moderator_id now : Nat) :
    set_quality_moderation_for_app store app_id ⟨guideline_id, passed⟩
        moderator_id now
      = upsert store app_id guideline_id passed moderator_id now
    ∧ (⟨app_id, guideline_id, passed, moderator_id, now⟩ : Row)
        ∈ upsert store app_id guideline_id passed moderator_id now := by
  refine ⟨rfl, ?_⟩
  unfold upsert
  by_cases hex : (store.any fun r =>
      r.app_id == app_id && r.guideline_id == guideline_id) = true
  · rw [if_pos hex]
    rcases List.any_eq_true.mp hex with ⟨r, hr, hpr⟩
    refine List.mem_map.mpr ⟨r, hr, ?_⟩
    rw [if_pos hpr]
  · rw [if_neg hex]
    exact List.mem_append_right _ (List.mem_singleton.mpr rfl)

lemma firstMatch_first (v1 v2 : List Row) (m : Row)
    (h1 : ∀ x ∈ v1, ¬ x.guideline_id = m.guideline_id) :
    firstMatch (v1 ++ m :: v2) m.guideline_id = some m := by
  unfold firstMatch
  rw [List.find?_append]
  have hv1 : (v1.find? fun mark => mark.guideline_id == m.guideline_id) = none := by
    apply List.find?_eq_none.mpr
    intro x hx
    simp [h1 x hx]
  rw [hv1]
  simp [List.find?_cons_of_pos]

/-- C10: when the verdict list holds several rows with the same
guideline id, the check record for that guideline takes its passed value
and update time from the first matching row in list order, while every
row, the shadowed duplicates included, still takes part in the last
updated maximum. -/
theorem c10_duplicate_verdicts_first_wins (catalog : List GuidelineCategory)
    (now : Nat) (v1 v2 : List Row) (m : Row)
    (h1 : ∀ x ∈ v1, ¬ x.guideline_id = m.guideline_id) :
    (∀ cid : String, ∀ g : Guideline, g.id = m.guideline_id →
        mkCheck cid g (v1 ++ m :: v2)
          = { category := cid, guideline := g.id,
              needed_to_pass_since := g.needed_to_pass_since,
              passed := some m.passed, updated_at := some m.updated_at })
    ∧ (∀ x ∈ v1 ++ m :: v2,
        x.updated_at ≤ (evaluate catalog (v1 ++ m :: v2) now).last_updated)
    ∧ (∃ x ∈ v1 ++ m :: v2,
        (evaluate catalog (v1 ++ m :: v2) now).last_updated = x.updated_at) := by
  refine ⟨?_, ?_, ?_⟩
  · intro cid g hg
    have hm : firstMatch (v1 ++ m :: v2) g.id = some m := by
      rw [hg]
      exact firstMatch_first v1 v2 m h1
    simp [mkCheck, hm]
  · intro x hx
    exact le_lastUpdated hx
  · cases v1 with
    | nil => exact lastUpdated_attained m v2
    | cons a l => exact lastUpdated_attained a (l ++ m :: v2)

/-- Witness for C10 at a concrete duplicated verdict list. -/
theorem c10_duplicate_verdicts_first_wins_witness :
    (∀ cid : String, ∀ g : Guideline, g.id = "g" →
        mkCheck cid g ([⟨"app", "other", false, 1, 3⟩]
            ++ ⟨"app", "g", true, 2, 9⟩ :: [⟨"app", "g", false, 3, 1⟩])
          = { category := cid, guideline := g.id,
              needed_to_pass_since := g.needed_to_pass_since,
              passed := some true, updated_at := some 9 })
    ∧ (∀ x ∈ [(⟨"app", "other", false, 1, 3⟩ : Row)]
          ++ ⟨"app", "g", true, 2, 9⟩ :: [⟨"app", "g", false, 3, 1⟩],
        x.updated_at ≤ (evaluate [⟨"c", [⟨"g", "u", 0, false⟩]⟩]
            ([⟨"app", "other", false, 1, 3⟩]
              ++ ⟨"app", "g", true, 2, 9⟩ :: [⟨"app", "g", false, 3, 1⟩]) 5).last_updated)
    ∧ (∃ x ∈ [(⟨"app", "other", false, 1, 3⟩ : Row)]
          ++ ⟨"app", "g", true, 2, 9⟩ :: [⟨"app", "g", false, 3, 1⟩],
        (evaluate [⟨"c", [⟨"g", "u", 0, false⟩]⟩]
            ([⟨"app", "other", false, 1, 3⟩]
              ++ ⟨"app", "g", true, 2, 9⟩ :: [⟨"app", "g", false, 3, 1⟩]) 5).last_updated
          = x.updated_at) :=
  c10_duplicate_verdicts_first_wins [⟨"c", [⟨"g", "u", 0, false⟩]⟩] 5
    [⟨"app", "other", false, 1, 3⟩] [⟨"app", "g", false, 3, 1⟩]
    ⟨"app", "g", true, 2, 9⟩ (by decide)

end QualityModeration
